import Mathlib

/-!
Verification of the Portsaid catalog scraper (`scraper.py`, plus the
simplified GitHub-Actions variant `src/scraper.py`).

The development shallowly embeds the two components with real decision
logic:

* the record normalizer `PortsaidScraper.process_products`
  (`scraper.py` lines 128-180; the variant's `main` lines 64-95 is the
  same logic minus sizes), modelled over a dynamic JSON value type with
  Python's dynamic-typing failures made explicit as `Except` errors;
* the paginated fetcher `PortsaidScraper.fetch_products`
  (`scraper.py` lines 75-126), modelled as a fuel-indexed loop over an
  abstract response schedule, instrumented with the list of
  (page, attempt) requests actually issued.

Numbers are modelled as `ℚ` (Python ints and floats collapsed; no claim
below depends on binary floating-point representation error, and
`round(x, 0)`'s round-half-to-even rule is modelled exactly on `ℚ`).
-/

namespace Scraping

/-- Dynamic JSON value, the shape of one raw product record as Python's
`json` module produces it: `None`, booleans, numbers, strings, lists and
string-keyed dicts. -/
inductive Json : Type where
  | null : Json
  | bool : Bool → Json
  | num : ℚ → Json
  | str : String → Json
  | arr : List Json → Json
  | obj : List (String × Json) → Json

/-- Python-style truthiness (`if x:`); total for the JSON types. -/
def pyTruthy : Json → Bool
  | .null => false
  | .bool b => b
  | .num q => q != 0
  | .str s => !s.isEmpty
  | .arr xs => !xs.isEmpty
  | .obj kvs => !kvs.isEmpty

/-- Association-list lookup with default, the dict part of `d.get(k, default)`. -/
def lookupKV : List (String × Json) → String → Json → Json
  | [], _, d => d
  | (k', v) :: t, k, d => if k' = k then v else lookupKV t k d

/-- Python `x.get(k, default)`: dict lookup with default; on a non-dict the
attribute access itself raises (`AttributeError`). -/
def pyGet (j : Json) (k : String) (d : Json) : Except String Json :=
  match j with
  | .obj kvs => .ok (lookupKV kvs k d)
  | _ => .error "AttributeError: get"

/-- Python `x[0]`: head of a list, first character of a nonempty string;
`IndexError` when empty, `KeyError`/`TypeError` on dicts and scalars. -/
def pyIndex0 : Json → Except String Json
  | .arr (x :: _) => .ok x
  | .arr [] => .error "IndexError"
  | .str s =>
      match s.toList with
      | c :: _ => .ok (.str (String.mk [c]))
      | [] => .error "IndexError"
  | _ => .error "TypeError: not subscriptable"

/-- Python iteration `for x in j`: lists yield elements, strings yield
1-character strings, dicts yield their keys; scalars raise `TypeError`. -/
def pyIterate : Json → Except String (List Json)
  | .arr xs => .ok xs
  | .str s => .ok (s.toList.map (fun c => .str (String.mk [c])))
  | .obj kvs => .ok (kvs.map (fun kv => .str kv.1))
  | _ => .error "TypeError: not iterable"

/-- Numeric view used by Python arithmetic and comparisons: booleans are
ints (`True == 1`, `False == 0`); other non-numbers do not coerce. -/
def toNumQ : Json → Option ℚ
  | .num q => some q
  | .bool b => some (if b then 1 else 0)
  | _ => none

/-- Python `a > 0` on a JSON value: defined for numbers and booleans,
`TypeError` otherwise. -/
def pyGtZero (a : Json) : Except String Bool :=
  match toNumQ a with
  | some x => .ok (decide (0 < x))
  | none => .error "TypeError: comparison"

/-- Python true division `a / b` on JSON values: numbers and booleans
divide; division by zero and non-numeric operands raise. -/
def pyDiv (a b : Json) : Except String ℚ :=
  match toNumQ a, toNumQ b with
  | some x, some y => if y = 0 then .error "ZeroDivisionError" else .ok (x / y)
  | _, _ => .error "TypeError: division"

/-- Round half to even, the rule of Python's builtin `round` (modelled on
exact rationals rather than on binary floats). -/
def roundHalfEven (q : ℚ) : ℤ :=
  let f : ℤ := ⌊q⌋
  let frac : ℚ := q - (f : ℚ)
  if frac < 1/2 then f
  else if 1/2 < frac then f + 1
  else if f % 2 = 0 then f else f + 1

/-- Python `s.lower()` (ASCII case folding, which covers the field names
the scraper matches on). -/
def pyLower (s : String) : String :=
  String.mk (s.toList.map Char.toLower)

/-- Whether `needle` is a prefix of `hay` (on character lists). -/
def isPrefixL : List Char → List Char → Bool
  | [], _ => true
  | _ :: _, [] => false
  | a :: as, b :: bs => a == b && isPrefixL as bs

/-- Python `needle in hay` for strings: substring containment. -/
def containsSub : List Char → List Char → Bool
  | [], needle => needle.isEmpty
  | h :: t, needle => isPrefixL needle (h :: t) || containsSub t needle

/-- Python `s[:n]` on a JSON value: strings and lists slice, scalars raise. -/
def pySlice (j : Json) (n : Nat) : Except String Json :=
  match j with
  | .str s => .ok (.str (String.mk (s.toList.take n)))
  | .arr xs => .ok (.arr (xs.take n))
  | _ => .error "TypeError: not subscriptable"

mutual

/-- Structural equality of JSON values, the equality `set` deduplication
uses (the scraper only ever deduplicates strings, where this coincides
with Python `==`). -/
def jsonEq : Json → Json → Bool
  | .null, .null => true
  | .bool a, .bool b => a == b
  | .num a, .num b => a == b
  | .str a, .str b => a == b
  | .arr a, .arr b => jsonEqList a b
  | .obj a, .obj b => jsonEqKV a b
  | _, _ => false

/-- Elementwise equality of JSON lists. -/
def jsonEqList : List Json → List Json → Bool
  | [], [] => true
  | a :: as, b :: bs => jsonEq a b && jsonEqList as bs
  | _, _ => false

/-- Elementwise equality of JSON key/value lists. -/
def jsonEqKV : List (String × Json) → List (String × Json) → Bool
  | [], [] => true
  | (ka, va) :: as, (kb, vb) :: bs => ka == kb && jsonEq va vb && jsonEqKV as bs
  | _, _ => false

end

/-- List membership up to `jsonEq`. -/
def jsonMem (x : Json) : List Json → Bool
  | [] => false
  | y :: t => jsonEq x y || jsonMem x t

/-- Deduplication, modelling `list(set(sizes))`. CPython's set iteration
order is unspecified, so any order-choosing dedup is a faithful model; this
one keeps the last occurrence of each value. -/
def pyDedup : List Json → List Json
  | [] => []
  | x :: xs => if jsonMem x xs then pyDedup xs else x :: pyDedup xs

/-- Python `set(...)` construction raises `TypeError` on unhashable
elements (lists, dicts). -/
def checkHashable : List Json → Except String Unit
  | [] => .ok ()
  | .arr _ :: _ => .error "TypeError: unhashable type"
  | .obj _ :: _ => .error "TypeError: unhashable type"
  | _ :: t => checkHashable t

/-- Extracts the underlying strings of a JSON list, as `', '.join(...)`
demands; a non-string element raises `TypeError`. -/
def getStrs : List Json → Except String (List String)
  | [] => .ok []
  | .str s :: t => do
      let r ← getStrs t
      .ok (s :: r)
  | _ :: _ => .error "TypeError: join expects str"

/-- Python str() rendering used by the f-string building `URL Producto`;
only the string case matters to any property below, the rest is a
best-effort rendering of Python's repr. -/
def pyFormat : Json → String
  | .str s => s
  | .bool true => "True"
  | .bool false => "False"
  | .null => "None"
  | .num q => toString q
  | .arr _ => "<list>"
  | .obj _ => "<dict>"

/-- Category separator rewrite: `category.replace('/', ' > ')` on
character lists (the pattern is the single character `/`). -/
def replaceSlash : List Char → List Char
  | [] => []
  | c :: t => if c = '/' then ' ' :: '>' :: ' ' :: replaceSlash t else c :: replaceSlash t

/-- Character class of `strip(' >')`: space or `>`. -/
def stripSet (c : Char) : Bool := c == ' ' || c == '>'

/-- Python `s.strip(' >')` on character lists: drop leading and trailing
spaces and `>` characters. -/
def stripL (l : List Char) : List Char :=
  ((l.dropWhile stripSet).reverse.dropWhile stripSet).reverse

/-- The category normalization of `scraper.py` line 166:
`category.replace('/', ' > ').strip(' >')`. -/
def normCategory (s : String) : String :=
  String.mk (stripL (replaceSlash s.toList))

/-- Price resolution of `scraper.py` lines 135-137 (identically
`src/scraper.py` lines 67-69): read `highPrice` out of the
`sellingPrice` and `listPrice` sub-objects of `priceRange`, each level
defaulting to an empty dict and the leaves defaulting to `0`. This is the
only price source the code reads; seller commercial offers are never
consulted. Returns `(selling_price, list_price)`. -/
def resolvedPrices (product : Json) : Except String (Json × Json) := do
  let priceRange ← pyGet product "priceRange" (.obj [])
  let sp0 ← pyGet priceRange "sellingPrice" (.obj [])
  let selling_price ← pyGet sp0 "highPrice" (.num 0)
  let lp0 ← pyGet priceRange "listPrice" (.obj [])
  let list_price ← pyGet lp0 "highPrice" (.num 0)
  .ok (selling_price, list_price)

/-- Category resolution of `scraper.py` lines 140-141 and 166:
`categories[0] if categories else ''`, then
`category.replace('/', ' > ').strip(' >')` (an `AttributeError` when the
selected category is not a string). -/
def resolveCategory (product : Json) : Except String String := do
  let categories ← pyGet product "categories" (.arr [])
  let category ← if pyTruthy categories then pyIndex0 categories else .ok (.str "")
  match category with
  | .str s => .ok (normCategory s)
  | _ => .error "AttributeError: replace"

/-- Image resolution of `scraper.py` lines 144-149: first item's first
image's `imageUrl`, empty string when any level is absent or empty. -/
def resolveImage (product : Json) : Except String Json := do
  let items ← pyGet product "items" (.arr [])
  if pyTruthy items then do
    let it0 ← pyIndex0 items
    let images ← pyGet it0 "images" (.arr [])
    if pyTruthy images then do
      let im0 ← pyIndex0 images
      pyGet im0 "imageUrl" (.str "")
    else .ok (.str "")
  else .ok (.str "")

/-- One `value.get('name', '')` per value (`scraper.py` lines 157-158). -/
def getNames : List Json → Except String (List Json)
  | [] => .ok []
  | v :: t => do
    let n ← pyGet v "name" (.str "")
    let rest ← getNames t
    .ok (n :: rest)

/-- Inner loop of the size scan (`scraper.py` lines 154-158): for each
specification whose lowercased field name contains `talle` or `size`,
append every `value.get('name', '')` of its values. -/
def collectSpecs : List Json → Except String (List Json)
  | [] => .ok []
  | spec :: rest => do
    let fieldJ ← pyGet spec "field" (.obj [])
    let nameJ ← pyGet fieldJ "name" (.str "")
    let lowered ← match nameJ with
      | .str s => Except.ok (pyLower s)
      | _ => Except.error "AttributeError: lower"
    if containsSub lowered.toList "talle".toList || containsSub lowered.toList "size".toList then do
      let valuesJ ← pyGet spec "values" (.arr [])
      let values ← pyIterate valuesJ
      let names ← getNames values
      let restNames ← collectSpecs rest
      .ok (names ++ restNames)
    else collectSpecs rest

/-- Size collection of `scraper.py` lines 152-158: scan
`skuSpecifications` and gather the value names of every size-relevant
specification, in input order, duplicates kept (dedup happens later). -/
def collectSizes (product : Json) : Except String (List Json) := do
  let sku_specs ← pyGet product "skuSpecifications" (.arr [])
  let specs ← pyIterate sku_specs
  collectSpecs specs

/-- Discount expression of `scraper.py` line 169 (identically
`src/scraper.py` line 88):
`round((1 - selling_price/list_price) * 100, 0) if list_price > 0 else 0`.
The guard is evaluated first, so division only happens when
`list_price > 0`. -/
def pyDiscount (list_price selling_price : Json) : Except String Json := do
  let c ← pyGtZero list_price
  if c then do
    let q ← pyDiv selling_price list_price
    .ok (.num ((roundHalfEven ((1 - q) * 100) : ℤ) : ℚ))
  else .ok (.num 0)

/-- The `Talles` expression of `scraper.py` line 170:
`', '.join(sizes) if sizes else 'N/A'` applied to the deduplicated size
list. -/
def tallesField (deduped : List Json) : Except String String :=
  if deduped.isEmpty then .ok "N/A"
  else do
    let ss ← getStrs deduped
    .ok (String.intercalate ", " ss)

/-- One canonical output record, the dict built at `scraper.py`
lines 162-174. Fields that Python stores untouched stay `Json`; fields
the code forces through string operations are `String`. -/
structure Canonical : Type where
  id : Json
  nombre : Json
  marca : Json
  categoria : String
  precioLista : Json
  precioVenta : Json
  descuento : Json
  talles : String
  urlImagen : Json
  urlProducto : String
  descripcion : Json

/-- The per-record body of `PortsaidScraper.process_products`
(`scraper.py` lines 133-174): everything inside the `try`. Any dynamic
typing failure anywhere in the body surfaces as `Except.error`, which the
caller turns into a skip. The order of the `let`s only affects which
error is reported, never the success value, so it is safe that the dict
literal's field expressions are evaluated here in a single pass. -/
def processProduct (base_url : String) (product : Json) : Except String Canonical := do
  let prices ← resolvedPrices product
  let selling_price := prices.1
  let list_price := prices.2
  let categoria ← resolveCategory product
  let main_image ← resolveImage product
  let sizesRaw ← collectSizes product
  let _ ← checkHashable sizesRaw
  let sizes := pyDedup sizesRaw
  let idJ ← pyGet product "productId" (.str "")
  let nombreJ ← pyGet product "productName" (.str "")
  let marcaJ ← pyGet product "brand" (.str "")
  let descuento ← pyDiscount list_price selling_price
  let talles ← tallesField sizes
  let linkJ ← pyGet product "link" (.str "")
  let descJ ← pyGet product "description" (.str "")
  let descripcion ← pySlice descJ 500
  .ok ⟨idJ, nombreJ, marcaJ, categoria, list_price, selling_price, descuento,
       talles, main_image, base_url ++ pyFormat linkJ, descripcion⟩

/-- The loop of `process_products` (`scraper.py` lines 130-178): each raw
record is processed inside `try/except Exception`. On failure the handler
(line 176) first builds its log message, whose f-string eagerly evaluates
`product.get('productId')`: for a non-dict record that second attribute
access raises `AttributeError` inside the `except` block and propagates
out of `process_products`, crashing the run; otherwise the record is
skipped (`continue`) and the rest keep their order. -/
def processProducts (base_url : String) : List Json → Except String (List Canonical)
  | [] => .ok []
  | p :: rest =>
    match processProduct base_url p with
    | .ok c => do
        let cs ← processProducts base_url rest
        .ok (c :: cs)
    | .error _ =>
      match pyGet p "productId" (.str "") with
      | .error e2 => .error e2
      | .ok _ => processProducts base_url rest

/-!
The paginated fetcher (`PortsaidScraper.fetch_products`, `scraper.py`
lines 75-126). The network is abstracted as a response schedule
`sched page attempt`: the outcome of the HTTP GET for `?page={page}` on
the given 0-based retry attempt, where `Except.ok ps` stands for a 2xx
response whose parsed body has `data.get('products', []) = ps`, and
`Except.error e` stands for any `requests.RequestException` (transport
failure, timeout, non-2xx status, malformed JSON). Errors are carried as
strings, matching that the code re-raises the caught exception object
itself. Each model function also returns the list of `(page, attempt)`
requests it issued, so that claims about requests never being sent are
statable.
-/

/-- Outcome of `fetch_products` in the model. -/
inductive FetchOut : Type where
  | done : List Json → FetchOut
  | err : String → FetchOut
  | nameError : FetchOut
  | fuelOut : FetchOut

/-- The retry loop for one page (`scraper.py` lines 86-117):
`for attempt in range(max_retries)` — return the parsed products on
success; on `RequestException` re-raise when `attempt == max_retries - 1`
and otherwise back off and retry. `attempt` is the current 0-based index
and `remaining` the number of iterations left including this one.
`Except.error none` models the `max_retries == 0` degenerate case, where
the loop body never runs and the `if not products` line below it raises
`NameError` on the first page. -/
def fetchPageGo (sched : Nat → Nat → Except String (List Json)) (page : Nat) :
    Nat → Nat → Except (Option String) (List Json) × List (Nat × Nat)
  | _, 0 => (.error none, [])
  | attempt, remaining + 1 =>
    match sched page attempt with
    | .ok ps => (.ok ps, [(page, attempt)])
    | .error e =>
      if remaining = 0 then (.error (some e), [(page, attempt)])
      else
        let r := fetchPageGo sched page (attempt + 1) remaining
        (r.1, (page, attempt) :: r.2)

/-- Fetch one page with up to `m` attempts, starting at attempt 0. -/
def fetchPage (sched : Nat → Nat → Except String (List Json)) (page m : Nat) :
    Except (Option String) (List Json) × List (Nat × Nat) :=
  fetchPageGo sched page 0 m

/-- The outer `while True` of `fetch_products` (`scraper.py`
lines 83-124), fuel-indexed: fetch the current page with retries; an
empty (or absent) `products` array returns the accumulator; a nonempty
one is appended with `all_products.extend(products)` and the loop moves
to `page + 1`; a raised error propagates. `fuelOut` marks runs whose
schedule needs more iterations than the given fuel (the Python loop has
no bound of its own). -/
def fetchGo (sched : Nat → Nat → Except String (List Json)) (m : Nat) :
    Nat → Nat → List Json → FetchOut × List (Nat × Nat)
  | 0, _, _ => (.fuelOut, [])
  | fuel + 1, page, acc =>
    let r := fetchPage sched page m
    match r.1 with
    | .error none => (.nameError, r.2)
    | .error (some e) => (.err e, r.2)
    | .ok ps =>
      if ps.isEmpty then (.done acc, r.2)
      else
        let rest := fetchGo sched m fuel (page + 1) (acc ++ ps)
        (rest.1, r.2 ++ rest.2)

/-- `fetch_products`: run the pagination loop from page 1 with an empty
accumulator. -/
def fetchProducts (sched : Nat → Nat → Except String (List Json)) (m fuel : Nat) :
    FetchOut × List (Nat × Nat) :=
  fetchGo sched m fuel 1 []

/-!
Concrete response schedules for the fetcher claims.
-/

/-- Every request fails (so page 1 exhausts its retries). -/
def schedFail1 : Nat → Nat → Except String (List Json) := fun _ _ => .error "boom"

/-- Page 1 succeeds with one product; every later request fails with the
same error text (so page 2 exhausts its retries). -/
def schedFail2 : Nat → Nat → Except String (List Json) := fun p _ =>
  if p = 1 then .ok [.null] else .error "boom"

/-- Page 1 fails on attempts 0 and 1 and succeeds on attempt 2; later
pages report an empty catalog. -/
def c4sched : Nat → Nat → Except String (List Json) := fun p a =>
  if p = 1 then
    (if a = 0 then .error "e0" else if a = 1 then .error "e1" else .ok [.null])
  else .ok []

/-- Page 1 holds one product; page 2 is empty. -/
def c5sched : Nat → Nat → Except String (List Json) := fun p _ =>
  if p = 1 then .ok [.null] else .ok []

/-- The per-page products of `c5sched`. -/
def c5ps : Nat → List Json := fun p => if p = 1 then [.null] else []

/-!
Supporting lemmas: `jsonEq` is a lawful equality, and `Except` bind
inversion principles used to take `processProduct` apart.
-/

mutual

theorem eq_of_jsonEq : ∀ (a b : Json), jsonEq a b = true → a = b
  | .null, .null, _ => rfl
  | .bool _, .bool _, h => by
      have h' : (_ == _) = true := h
      rw [eq_of_beq h']
  | .num _, .num _, h => by
      have h' : (_ == _) = true := h
      rw [eq_of_beq h']
  | .str _, .str _, h => by
      have h' : (_ == _) = true := h
      rw [eq_of_beq h']
  | .arr as, .arr bs, h => congrArg Json.arr (eq_of_jsonEqList as bs h)
  | .obj as, .obj bs, h => congrArg Json.obj (eq_of_jsonEqKV as bs h)
  | .null, .bool _, h => by simp [jsonEq] at h
  | .null, .num _, h => by simp [jsonEq] at h
  | .null, .str _, h => by simp [jsonEq] at h
  | .null, .arr _, h => by simp [jsonEq] at h
  | .null, .obj _, h => by simp [jsonEq] at h
  | .bool _, .null, h => by simp [jsonEq] at h
  | .bool _, .num _, h => by simp [jsonEq] at h
  | .bool _, .str _, h => by simp [jsonEq] at h
  | .bool _, .arr _, h => by simp [jsonEq] at h
  | .bool _, .obj _, h => by simp [jsonEq] at h
  | .num _, .null, h => by simp [jsonEq] at h
  | .num _, .bool _, h => by simp [jsonEq] at h
  | .num _, .str _, h => by simp [jsonEq] at h
  | .num _, .arr _, h => by simp [jsonEq] at h
  | .num _, .obj _, h => by simp [jsonEq] at h
  | .str _, .null, h => by simp [jsonEq] at h
  | .str _, .bool _, h => by simp [jsonEq] at h
  | .str _, .num _, h => by simp [jsonEq] at h
  | .str _, .arr _, h => by simp [jsonEq] at h
  | .str _, .obj _, h => by simp [jsonEq] at h
  | .arr _, .null, h => by simp [jsonEq] at h
  | .arr _, .bool _, h => by simp [jsonEq] at h
  | .arr _, .num _, h => by simp [jsonEq] at h
  | .arr _, .str _, h => by simp [jsonEq] at h
  | .arr _, .obj _, h => by simp [jsonEq] at h
  | .obj _, .null, h => by simp [jsonEq] at h
  | .obj _, .bool _, h => by simp [jsonEq] at h
  | .obj _, .num _, h => by simp [jsonEq] at h
  | .obj _, .str _, h => by simp [jsonEq] at h
  | .obj _, .arr _, h => by simp [jsonEq] at h

theorem eq_of_jsonEqList : ∀ (as bs : List Json), jsonEqList as bs = true → as = bs
  | [], [], _ => rfl
  | [], _ :: _, h => by simp [jsonEqList] at h
  | _ :: _, [], h => by simp [jsonEqList] at h
  | a :: as, b :: bs, h => by
      have h' : (jsonEq a b && jsonEqList as bs) = true := h
      rw [Bool.and_eq_true] at h'
      rw [eq_of_jsonEq a b h'.1, eq_of_jsonEqList as bs h'.2]

theorem eq_of_jsonEqKV : ∀ (as bs : List (String × Json)), jsonEqKV as bs = true → as = bs
  | [], [], _ => rfl
  | [], _ :: _, h => by simp [jsonEqKV] at h
  | _ :: _, [], h => by simp [jsonEqKV] at h
  | (ka, va) :: as, (kb, vb) :: bs, h => by
      have h' : ((ka == kb && jsonEq va vb) && jsonEqKV as bs) = true := h
      rw [Bool.and_eq_true, Bool.and_eq_true] at h'
      rw [eq_of_beq h'.1.1, eq_of_jsonEq va vb h'.1.2, eq_of_jsonEqKV as bs h'.2]

end

mutual

theorem jsonEq_refl : ∀ (a : Json), jsonEq a a = true
  | .null => rfl
  | .bool b => by simp [jsonEq]
  | .num q => by simp [jsonEq]
  | .str s => by simp [jsonEq]
  | .arr as => jsonEqList_refl as
  | .obj as => jsonEqKV_refl as

theorem jsonEqList_refl : ∀ (as : List Json), jsonEqList as as = true
  | [] => rfl
  | a :: as => by
      have h1 := jsonEq_refl a
      have h2 := jsonEqList_refl as
      simp [jsonEqList, h1, h2]

theorem jsonEqKV_refl : ∀ (as : List (String × Json)), jsonEqKV as as = true
  | [] => rfl
  | (k, v) :: as => by
      have h1 := jsonEq_refl v
      have h2 := jsonEqKV_refl as
      simp [jsonEqKV, h1, h2]

end

theorem jsonEq_iff (a b : Json) : jsonEq a b = true ↔ a = b :=
  ⟨eq_of_jsonEq a b, fun h => h ▸ jsonEq_refl a⟩


/-- Inversion of `Except` bind hitting `ok`. -/
theorem bind_ok_inv {e : Except ε α} {f : α → Except ε β} {c : β}
    (h : e >>= f = .ok c) : ∃ a, e = .ok a ∧ f a = .ok c := by
  cases e with
  | error e0 => exact Except.noConfusion h
  | ok a => exact ⟨a, rfl, h⟩

/-- Bind of a success computes. -/
theorem ok_bind (a : α) (f : α → Except ε β) : (Except.ok a >>= f) = f a := rfl

/-- Bind of a failure propagates the failure. -/
theorem error_bind (e : ε) (f : α → Except ε β) :
    (Except.error e >>= f : Except ε β) = Except.error e := rfl

/-- Builds a `processProduct` success from the success of each component
step (the reverse direction of `processProduct_ok_inv`). -/
theorem processProduct_build (b : String) (p : Json) (sp lp : Json) (cat : String)
    (img : Json) (sl : List Json) (idJ nomJ marJ : Json) (d : Json) (tal : String)
    (lnk dsc dtr : Json)
    (h1 : resolvedPrices p = .ok (sp, lp))
    (h2 : resolveCategory p = .ok cat)
    (h3 : resolveImage p = .ok img)
    (h4 : collectSizes p = .ok sl)
    (h5 : checkHashable sl = .ok ())
    (h6 : pyGet p "productId" (.str "") = .ok idJ)
    (h7 : pyGet p "productName" (.str "") = .ok nomJ)
    (h8 : pyGet p "brand" (.str "") = .ok marJ)
    (h9 : pyDiscount lp sp = .ok d)
    (h10 : tallesField (pyDedup sl) = .ok tal)
    (h11 : pyGet p "link" (.str "") = .ok lnk)
    (h12 : pyGet p "description" (.str "") = .ok dsc)
    (h13 : pySlice dsc 500 = .ok dtr) :
    processProduct b p =
      .ok ⟨idJ, nomJ, marJ, cat, lp, sp, d, tal, img, b ++ pyFormat lnk, dtr⟩ := by
  simp only [processProduct, h1, h2, h3, h4, h5, h6, h7, h8, h9, h10, h11, h12, h13, ok_bind]

/-- Inversion: a `processProduct` success determines a success of every
component step and fixes each output field. -/
theorem processProduct_ok_inv {b : String} {p : Json} {c : Canonical}
    (h : processProduct b p = .ok c) :
    ∃ sp lp cat img sl idJ nomJ marJ d tal lnk dsc dtr,
      resolvedPrices p = .ok (sp, lp) ∧
      resolveCategory p = .ok cat ∧
      resolveImage p = .ok img ∧
      collectSizes p = .ok sl ∧
      checkHashable sl = .ok () ∧
      pyGet p "productId" (.str "") = .ok idJ ∧
      pyGet p "productName" (.str "") = .ok nomJ ∧
      pyGet p "brand" (.str "") = .ok marJ ∧
      pyDiscount lp sp = .ok d ∧
      tallesField (pyDedup sl) = .ok tal ∧
      pyGet p "link" (.str "") = .ok lnk ∧
      pyGet p "description" (.str "") = .ok dsc ∧
      pySlice dsc 500 = .ok dtr ∧
      c = ⟨idJ, nomJ, marJ, cat, lp, sp, d, tal, img, b ++ pyFormat lnk, dtr⟩ := by
  unfold processProduct at h
  obtain ⟨prices, h1, h⟩ := bind_ok_inv h
  obtain ⟨sp, lp⟩ := prices
  obtain ⟨cat, h2, h⟩ := bind_ok_inv h
  obtain ⟨img, h3, h⟩ := bind_ok_inv h
  obtain ⟨sl, h4, h⟩ := bind_ok_inv h
  obtain ⟨u, h5, h⟩ := bind_ok_inv h
  cases u
  dsimp only at h
  obtain ⟨idJ, h6, h⟩ := bind_ok_inv h
  obtain ⟨nomJ, h7, h⟩ := bind_ok_inv h
  obtain ⟨marJ, h8, h⟩ := bind_ok_inv h
  obtain ⟨d, h9, h⟩ := bind_ok_inv h
  obtain ⟨tal, h10, h⟩ := bind_ok_inv h
  obtain ⟨lnk, h11, h⟩ := bind_ok_inv h
  obtain ⟨dsc, h12, h⟩ := bind_ok_inv h
  obtain ⟨dtr, h13, h⟩ := bind_ok_inv h
  refine ⟨sp, lp, cat, img, sl, idJ, nomJ, marJ, d, tal, lnk, dsc, dtr,
    h1, h2, h3, h4, h5, h6, h7, h8, h9, h10, h11, h12, h13, ?_⟩
  cases h
  rfl

/-!
Concrete inputs used by counterexamples and witnesses.
-/

/-- The scraper's base URL (`scraper.py` line 31). -/
def baseUrl : String := "https://www.portsaid.com.ar"

/-- Builds a record holding only an item list with one seller whose
commercial offer is `offer` — the claimed price source. -/
def mkItemsRec (offer : Json) : Json :=
  .obj [("items", .arr [.obj [("sellers", .arr [.obj [("commertialOffer", offer)]])]])]

/-- The spec scenario record: one seller offer with `Price:800`,
`ListPrice:1000`, and no `priceRange`. -/
def c1rec : Json := mkItemsRec (.obj [("Price", .num 800), ("ListPrice", .num 1000)])

/-- What `processProduct` actually emits for any `mkItemsRec offer`. -/
def offerOnlyCanonical : Canonical :=
  ⟨.str "", .str "", .str "", "", .num 0, .num 0, .num 0, "N/A", .str "",
   baseUrl ++ "", .str ""⟩

/-- A record whose `categories` field is a number: `categories[0]` raises
`TypeError`, so the record is skipped. -/
def badRec : Json := .obj [("categories", .num 5)]

/-- A trivial record that normalizes successfully. -/
def emptyRec : Json := .obj []

/-- The canonical record `emptyRec` normalizes to. -/
def emptyCanonical : Canonical :=
  ⟨.str "", .str "", .str "", "", .num 0, .num 0, .num 0, "N/A", .str "",
   baseUrl ++ "", .str ""⟩

/-- Builds a record whose only field is a `priceRange` with the given
`listPrice.highPrice` and `sellingPrice.highPrice`. -/
def mkPriceRec (listHigh sellingHigh : ℚ) : Json :=
  .obj [("priceRange", .obj [("listPrice", .obj [("highPrice", .num listHigh)]),
                             ("sellingPrice", .obj [("highPrice", .num sellingHigh)])])]

/-- Record with `listPrice = 100 < sellingPrice = 200`. -/
def c2rec : Json := mkPriceRec 100 200

/-- Record with `listPrice = sellingPrice = 500`. -/
def c2wrec : Json := mkPriceRec 500 500

/-- Record with `listPrice = 1001 > sellingPrice = 1000`. -/
def c3rec : Json := mkPriceRec 1001 1000

/-- Record with `listPrice = 1000 > sellingPrice = 800`. -/
def c3wrec : Json := mkPriceRec 1000 800

/-- The spec's C7 scenario: no `items`, catalog price range 1200/900. -/
def c7rec : Json := mkPriceRec 1200 900

/-- Canonical output for `mkPriceRec` records with the given prices and
discount. -/
def priceOnlyCanonical (listHigh sellingHigh disc : ℚ) : Canonical :=
  ⟨.str "", .str "", .str "", "", .num listHigh, .num sellingHigh, .num disc,
   "N/A", .str "", baseUrl ++ "", .str ""⟩

/-- Size specification record with value names S, M, S (in order). -/
def c9recA : Json := .obj [("skuSpecifications", .arr [.obj [
  ("field", .obj [("name", .str "Talle")]),
  ("values", .arr [.obj [("name", .str "S")], .obj [("name", .str "M")],
                   .obj [("name", .str "S")]])]])]

/-- Size specification record with value names M, S (in order). -/
def c9recB : Json := .obj [("skuSpecifications", .arr [.obj [
  ("field", .obj [("name", .str "Talle")]),
  ("values", .arr [.obj [("name", .str "M")], .obj [("name", .str "S")]])]])]

/-- The size lists the two records collect. -/
def c9sizesA : List Json := [.str "S", .str "M", .str "S"]

/-- The size lists the two records collect. -/
def c9sizesB : List Json := [.str "M", .str "S"]

/-!
Claim C6 — per-record failures and the except handler's own lookup.
-/

/-- A run over dict-shaped records never raises: the handler's
`product.get('productId')` always succeeds on a dict. -/
theorem processProducts_obj_ok (b : String) :
    ∀ l : List Json, (∀ p ∈ l, ∃ kvs, p = Json.obj kvs) →
      ∃ cs, processProducts b l = .ok cs := by
  intro l
  induction l with
  | nil => exact fun _ => ⟨[], rfl⟩
  | cons p t ih =>
    intro h
    obtain ⟨cs, hcs⟩ := ih (fun q hq => h q (List.mem_cons_of_mem p hq))
    obtain ⟨kvs, hk⟩ := h p (List.mem_cons_self p t)
    cases hp : processProduct b p with
    | ok c =>
      refine ⟨c :: cs, ?_⟩
      conv_lhs => unfold processProducts
      rw [hp, hcs]
      rfl
    | error e =>
      refine ⟨cs, ?_⟩
      conv_lhs => unfold processProducts
      rw [hp, hk]
      exact hcs

/-- Dropping a record whose normalization fails but whose handler lookup
succeeds leaves the run unchanged. -/
theorem processProducts_skip (b : String) (r : Json) (e : String) (v : Json)
    (h : processProduct b r = .error e)
    (hget : pyGet r "productId" (.str "") = .ok v) :
    ∀ l1 l2, processProducts b (l1 ++ r :: l2) = processProducts b (l1 ++ l2) := by
  intro l1
  induction l1 with
  | nil =>
    intro l2
    show processProducts b (r :: l2) = processProducts b l2
    conv_lhs => unfold processProducts
    rw [h, hget]
  | cons p t ih =>
    intro l2
    show processProducts b (p :: (t ++ r :: l2)) = processProducts b (p :: (t ++ l2))
    unfold processProducts
    cases hp : processProduct b p with
    | ok c =>
      rw [ih l2]
    | error e2 =>
      cases hq : pyGet p "productId" (.str "") with
      | error e3 => rfl
      | ok w =>
        rw [ih l2]

/-- C6 (amended): if normalizing one record raises a structural error and
the record is a dict — so the except handler's own
`product.get('productId')` log access (line 176) succeeds — the record is
skipped and the run is exactly the run without it, the other records'
outputs in their original order; over dict-shaped records the run never
raises. (For a non-dict record the handler itself raises, see the
counterexample.) -/
theorem c6_skip_on_error (b : String) (l1 l2 : List Json) (r : Json) (e : String)
    (v : Json)
    (h : processProduct b r = .error e)
    (hget : pyGet r "productId" (.str "") = .ok v) :
    processProducts b (l1 ++ r :: l2) = processProducts b (l1 ++ l2) ∧
    ((∀ p ∈ l1 ++ l2, ∃ kvs, p = Json.obj kvs) →
      ∃ cs, processProducts b (l1 ++ r :: l2) = .ok cs) := by
  refine ⟨processProducts_skip b r e v h hget l1 l2, ?_⟩
  intro hobj
  obtain ⟨cs, hcs⟩ := processProducts_obj_ok b (l1 ++ l2) hobj
  exact ⟨cs, by rw [processProducts_skip b r e v h hget l1 l2, hcs]⟩

/-- Witness for C6 at a concrete malformed dict record between two good
ones: it is skipped, the others survive, and the run returns `ok`. -/
theorem c6_skip_on_error_witness :
    processProduct baseUrl badRec = .error "TypeError: not subscriptable" ∧
    pyGet badRec "productId" (.str "") = .ok (.str "") ∧
    processProducts baseUrl [emptyRec, badRec, c9recB] =
      processProducts baseUrl [emptyRec, c9recB] ∧
    (∃ cs, processProducts baseUrl [emptyRec, badRec, c9recB] = .ok cs) := by
  have hth := c6_skip_on_error baseUrl [emptyRec] [c9recB] badRec
    "TypeError: not subscriptable" (.str "") rfl rfl
  refine ⟨rfl, rfl, hth.1, hth.2 ?_⟩
  intro p hp
  simp at hp
  rcases hp with rfl | rfl
  · exact ⟨[], rfl⟩
  · exact ⟨_, rfl⟩

/-- C6 counterexample: a record that is not a dict (here the bare number
5) fails normalization with a structural error, and then the except
handler's own `product.get('productId')` raises as well:
`process_products` propagates the error instead of skipping, and no other
record's output is produced. -/
theorem c6_counterexample :
    processProduct baseUrl (Json.num 5) = .error "AttributeError: get" ∧
    processProducts baseUrl [emptyRec, Json.num 5, c9recB] =
      .error "AttributeError: get" :=
  ⟨rfl, rfl⟩

/-!
Claim C8 — category normalization idempotence.
-/

/-- The slash character never survives `replaceSlash`. -/
theorem replaceSlash_no_slash : ∀ l : List Char, '/' ∉ replaceSlash l := by
  intro l
  induction l with
  | nil => simp [replaceSlash]
  | cons c t ih =>
    by_cases hc : c = '/'
    · simp [replaceSlash, hc, ih]
    · simp [replaceSlash, hc, ih]
      intro h
      exact hc h.symm

/-- On slash-free input, `replaceSlash` is the identity. -/
theorem replaceSlash_of_no_slash : ∀ l : List Char, '/' ∉ l → replaceSlash l = l := by
  intro l
  induction l with
  | nil => intro; rfl
  | cons c t ih =>
    intro h
    have hc : c ≠ '/' := fun hq => h (hq ▸ List.mem_cons_self c t)
    have ht : '/' ∉ t := fun hq => h (List.mem_cons_of_mem c hq)
    simp [replaceSlash, fun hq => hc hq, ih ht]

/-- Dropping a satisfied prefix twice is the same as dropping it once. -/
theorem dropWhile_idem (p : α → Bool) (l : List α) :
    (l.dropWhile p).dropWhile p = l.dropWhile p :=
  List.dropWhile_eq_self_iff.mpr (fun hl => List.dropWhile_get_zero_not (p := p) l hl)

/-- A prefix of a list that survives `dropWhile` survives it too. -/
theorem dropWhile_eq_self_of_prefix (p : α → Bool) {B C : List α} (hpre : B <+: C)
    (hC : C.dropWhile p = C) : B.dropWhile p = B := by
  rw [List.dropWhile_eq_self_iff]
  intro hl
  have hlenC : 0 < C.length := lt_of_lt_of_le hl hpre.length_le
  have h0 := (List.dropWhile_eq_self_iff.mp hC) hlenC
  have hbc : B.get ⟨0, hl⟩ = C.get ⟨0, hlenC⟩ := by
    have := hpre.getElem (n := 0) hl
    simpa [List.get_eq_getElem] using this
  rw [hbc]
  exact h0

/-- Every element of `stripL l` is an element of `l`. -/
theorem mem_of_mem_stripL {x : Char} {l : List Char} (h : x ∈ stripL l) : x ∈ l := by
  unfold stripL at h
  rw [List.mem_reverse] at h
  have h1 := (List.dropWhile_sublist stripSet (l := (l.dropWhile stripSet).reverse)).subset h
  rw [List.mem_reverse] at h1
  exact (List.dropWhile_sublist stripSet (l := l)).subset h1

/-- Stripping is idempotent. -/
theorem stripL_idem (l : List Char) : stripL (stripL l) = stripL l := by
  have hAA : (l.dropWhile stripSet).dropWhile stripSet = l.dropWhile stripSet :=
    dropWhile_idem stripSet l
  have hpre : stripL l <+: l.dropWhile stripSet := by
    unfold stripL
    have hsuf := List.dropWhile_suffix (l := (l.dropWhile stripSet).reverse) stripSet
    have hp := List.reverse_prefix.mpr hsuf
    rwa [List.reverse_reverse] at hp
  have hstep1 : (stripL l).dropWhile stripSet = stripL l :=
    dropWhile_eq_self_of_prefix stripSet hpre hAA
  have hstep2 : (stripL l).reverse.dropWhile stripSet = (stripL l).reverse := by
    unfold stripL
    rw [List.reverse_reverse]
    exact dropWhile_idem stripSet _
  calc stripL (stripL l)
      = (((stripL l).dropWhile stripSet).reverse.dropWhile stripSet).reverse := rfl
    _ = ((stripL l).reverse.dropWhile stripSet).reverse := by rw [hstep1]
    _ = ((stripL l).reverse).reverse := by rw [hstep2]
    _ = stripL l := List.reverse_reverse _

/-- C8 (amended): normalization is idempotent in the functional sense —
re-normalizing any normalizer output returns it unchanged. Slash-freeness
alone does not make a string a fixed point (see the counterexample): the
string must also carry no leading or trailing space or `>`. -/
theorem c8_norm_category_idempotent (s : String) :
    normCategory (normCategory s) = normCategory s := by
  unfold normCategory
  have htl : (String.mk (stripL (replaceSlash s.toList))).toList
      = stripL (replaceSlash s.toList) := rfl
  rw [htl]
  have hns : '/' ∉ stripL (replaceSlash s.toList) := by
    intro hmem
    exact replaceSlash_no_slash s.toList (mem_of_mem_stripL hmem)
  rw [replaceSlash_of_no_slash _ hns, stripL_idem]

/-- C8 counterexample: `" a"` contains no slash, yet normalizing it gives
`"a"`, not itself — so "contains no `/`" does not characterize the
normalized (fixed-point) strings. -/
theorem c8_counterexample :
    (" a".toList.contains '/') = false ∧ normCategory " a" = "a" ∧ " a" ≠ "a" :=
  ⟨rfl, rfl, by decide⟩

/-!
Claim C9 — size sets are order- and duplication-invariant.
-/

/-- Deduplication preserves `jsonEq`-membership. -/
theorem jsonMem_pyDedup (x : Json) (l : List Json) :
    jsonMem x (pyDedup l) = jsonMem x l := by
  induction l with
  | nil => rfl
  | cons y t ih =>
    by_cases h : jsonMem y t = true
    · rw [show pyDedup (y :: t) = pyDedup t by simp [pyDedup, h], ih]
      cases hxy : jsonEq x y with
      | false => simp [jsonMem, hxy]
      | true =>
        have hx : x = y := eq_of_jsonEq x y hxy
        simp [jsonMem, hxy, hx ▸ h]
    · have h' : jsonMem y t = false := by simpa using h
      rw [show pyDedup (y :: t) = y :: pyDedup t by simp [pyDedup, h']]
      simp [jsonMem, ih]

/-- C9: two records whose size scans collect the same set of value names
(any order, any duplication) yield the same deduplicated set of sizes. -/
theorem c9_sizes_set_invariant (r1 r2 : Json) (l1 l2 : List Json)
    (h1 : collectSizes r1 = .ok l1) (h2 : collectSizes r2 = .ok l2)
    (hset : ∀ x, jsonMem x l1 = jsonMem x l2) :
    ∀ x, jsonMem x (pyDedup l1) = jsonMem x (pyDedup l2) := by
  intro x
  rw [jsonMem_pyDedup, jsonMem_pyDedup]
  exact hset x

/-- Witness for C9 on the spec's own example: value names S,M,S versus
M,S give the same size set. -/
theorem c9_sizes_set_invariant_witness :
    collectSizes c9recA = .ok c9sizesA ∧
    collectSizes c9recB = .ok c9sizesB ∧
    (∀ x, jsonMem x (pyDedup c9sizesA) = jsonMem x (pyDedup c9sizesB)) :=
  ⟨rfl, rfl, c9_sizes_set_invariant c9recA c9recB c9sizesA c9sizesB rfl rfl
    (by
      intro x
      cases h1 : jsonEq x (.str "S") <;> cases h2 : jsonEq x (.str "M") <;>
        simp [jsonMem, c9sizesA, c9sizesB, h1, h2])⟩

/-!
Claim C10 — the `Talles` field is `"N/A"` exactly when no size was
collected, and otherwise a comma-joined string.
-/

/-- Deduplication returns the empty list only on the empty list. -/
theorem pyDedup_eq_nil {l : List Json} (h : pyDedup l = []) : l = [] := by
  induction l with
  | nil => rfl
  | cons y t ih =>
    by_cases hm : jsonMem y t = true
    · rw [show pyDedup (y :: t) = pyDedup t by simp [pyDedup, hm]] at h
      rw [ih h] at hm
      simp [jsonMem] at hm
    · have h' : jsonMem y t = false := by simpa using hm
      rw [show pyDedup (y :: t) = y :: pyDedup t by simp [pyDedup, h']] at h
      exact absurd h (by simp)

/-- `getStrs` preserves nonemptiness. -/
theorem getStrs_ne_nil {l : List Json} {ss : List String}
    (h : getStrs l = .ok ss) (hne : l ≠ []) : ss ≠ [] := by
  cases l with
  | nil => exact absurd rfl hne
  | cons x t =>
    cases x with
    | str s0 =>
      unfold getStrs at h
      obtain ⟨r, hr, h⟩ := bind_ok_inv h
      cases h
      simp
    | null => exact absurd h (by simp [getStrs])
    | bool b => exact absurd h (by simp [getStrs])
    | num q => exact absurd h (by simp [getStrs])
    | arr xs => exact absurd h (by simp [getStrs])
    | obj kvs => exact absurd h (by simp [getStrs])

/-- C10: in every successfully normalized record, `Talles` is the literal
string `"N/A"` when no size name was collected, and otherwise the
comma-join of the deduplicated size names — always a string, never a
set value. -/
theorem c10_talles_na_or_join (b : String) (r : Json) (c : Canonical)
    (h : processProduct b r = .ok c) :
    (collectSizes r = .ok [] → c.talles = "N/A") ∧
    (∀ l, collectSizes r = .ok l → l ≠ [] →
      ∃ ss, getStrs (pyDedup l) = .ok ss ∧ ss ≠ [] ∧
        c.talles = String.intercalate ", " ss) := by
  obtain ⟨sp, lp, cat, img, sl, idJ, nomJ, marJ, d, tal, lnk, dsc, dtr,
    h1, h2, h3, h4, h5, h6, h7, h8, h9, h10, h11, h12, h13, hc⟩ :=
    processProduct_ok_inv h
  constructor
  · intro hnil
    rw [h4] at hnil
    cases hnil
    have : tal = "N/A" := by
      unfold tallesField at h10
      simp [pyDedup] at h10
      exact h10.symm
    rw [hc, this]
  · intro l hl hlne
    rw [h4] at hl
    cases hl
    have hdne : pyDedup sl ≠ [] := fun hq => hlne (pyDedup_eq_nil hq)
    unfold tallesField at h10
    rw [if_neg (by simpa using hdne)] at h10
    obtain ⟨ss, hss, h10⟩ := bind_ok_inv h10
    cases h10
    exact ⟨ss, hss, getStrs_ne_nil hss hdne, by rw [hc]⟩

/-- Witness for C10: the empty record collects no sizes and gets
`Talles = "N/A"`; the size record S,M,S gets the joined string. -/
theorem c10_talles_na_or_join_witness :
    emptyCanonical.talles = "N/A" ∧
    processProduct baseUrl c9recA ≠ .error "" :=
  ⟨(c10_talles_na_or_join baseUrl emptyRec emptyCanonical rfl).1 rfl,
   by simp [show processProduct baseUrl c9recA = .ok
      ⟨.str "", .str "", .str "", "", .num 0, .num 0, .num 0, "M, S", .str "",
       baseUrl ++ "", .str ""⟩ from rfl]⟩

/-!
Rounding and discount evaluation lemmas.
-/

/-- Unfolded form of `roundHalfEven`. -/
theorem roundHalfEven_def (q : ℚ) : roundHalfEven q =
    if q - (⌊q⌋ : ℚ) < 1/2 then ⌊q⌋
    else if 1/2 < q - (⌊q⌋ : ℚ) then ⌊q⌋ + 1
    else if ⌊q⌋ % 2 = 0 then ⌊q⌋ else ⌊q⌋ + 1 := rfl

/-- Rounding a value within `[z, z + 1/2)` gives `z`. -/
theorem roundHalfEven_eq_of_lt_half (z : ℤ) (q : ℚ) (h1 : (z : ℚ) ≤ q)
    (h2 : q < (z : ℚ) + 1/2) : roundHalfEven q = z := by
  have hf : ⌊q⌋ = z := Int.floor_eq_iff.mpr ⟨h1, by linarith⟩
  rw [roundHalfEven_def, hf, if_pos (by linarith)]

/-- Integers round to themselves. -/
theorem roundHalfEven_intCast (z : ℤ) : roundHalfEven (z : ℚ) = z :=
  roundHalfEven_eq_of_lt_half z _ le_rfl (by linarith)

/-- The rounding never drops below the floor. -/
theorem floor_le_roundHalfEven (q : ℚ) : ⌊q⌋ ≤ roundHalfEven q := by
  rw [roundHalfEven_def]
  split_ifs <;> omega

/-- The rounding never exceeds the floor plus one. -/
theorem roundHalfEven_le_floor_add_one (q : ℚ) : roundHalfEven q ≤ ⌊q⌋ + 1 := by
  rw [roundHalfEven_def]
  split_ifs <;> omega

/-- The discount expression on numeric prices with a positive list price:
the guard passes and the rounded formula is emitted. -/
theorem pyDiscount_num_pos {lq : ℚ} (sq : ℚ) (h : 0 < lq) :
    pyDiscount (.num lq) (.num sq) =
      .ok (.num ((roundHalfEven ((1 - sq / lq) * 100) : ℤ) : ℚ)) := by
  unfold pyDiscount pyGtZero pyDiv toNumQ
  simp [h, ne_of_gt h, ok_bind]

/-- The discount expression on numeric prices with a non-positive list
price: the guard fails and the discount is literally `0` (in particular no
division happens). -/
theorem pyDiscount_num_nonpos {lq : ℚ} (sq : ℚ) (h : lq ≤ 0) :
    pyDiscount (.num lq) (.num sq) = .ok (.num 0) := by
  unfold pyDiscount pyGtZero toNumQ
  simp [not_lt.mpr h, ok_bind]

/-!
Claim C1 — the seller commercial offer is never a price source.
-/

/-- C1 counterexample: the spec scenario record (one seller offer,
`Price:800`, `ListPrice:1000`, no `priceRange`) yields prices 0, 0 and
discount 0 — not 1000, 800 and 20 as claimed. -/
theorem c1_counterexample :
    (processProduct baseUrl c1rec).map Canonical.precioLista = .ok (.num 0) ∧
    (processProduct baseUrl c1rec).map Canonical.precioVenta = .ok (.num 0) ∧
    (processProduct baseUrl c1rec).map Canonical.descuento = .ok (.num 0) ∧
    Json.num 0 ≠ Json.num 1000 ∧ Json.num 0 ≠ Json.num 800 ∧
    Json.num 0 ≠ Json.num 20 := by
  refine ⟨rfl, rfl, rfl, ?_, ?_, ?_⟩ <;>
    · intro hq
      injection hq with hq'
      norm_num at hq'

/-- C1 (amended): the normalizer never reads the seller commercial offer.
Whatever the offer contains, a record holding only the item/seller/offer
chain resolves prices exclusively from the (absent) `priceRange`,
producing `listPrice = 0`, `sellingPrice = 0`, `discountPercent = 0`. -/
theorem c1_prices_ignore_commercial_offer (offer : Json) :
    processProduct baseUrl (mkItemsRec offer) = .ok offerOnlyCanonical := rfl

/-!
Claim C2 — when the discount is exactly zero.
-/

/-- C2 counterexample: resolved prices `listPrice = 100 ≤ sellingPrice =
200` produce discount `-100`, not `0` — the code's only guard is
`list_price > 0`. -/
theorem c2_counterexample :
    resolvedPrices c2rec = .ok (.num 200, .num 100) ∧ (100 : ℚ) ≤ 200 ∧
    (processProduct baseUrl c2rec).map Canonical.descuento = .ok (.num (-100)) ∧
    Json.num (-100) ≠ Json.num 0 := by
  have hd : pyDiscount (.num 100) (.num 200) = .ok (.num (-100)) := by
    rw [pyDiscount_num_pos 200 (by norm_num),
      show (1 - (200 : ℚ) / 100) * 100 = ((-100 : ℤ) : ℚ) by norm_num,
      roundHalfEven_intCast]
    norm_num
  have hb := processProduct_build baseUrl c2rec (.num 200) (.num 100) "" (.str "")
    [] (.str "") (.str "") (.str "") (.num (-100)) "N/A" (.str "") (.str "") (.str "")
    rfl rfl rfl rfl rfl rfl rfl rfl hd rfl rfl rfl rfl
  refine ⟨rfl, by norm_num, ?_, ?_⟩
  · rw [hb]; rfl
  · intro hq
    injection hq with hq'
    norm_num at hq'

/-- C2 (amended): the discount is exactly `0` whenever the resolved list
price is non-positive (the guard, which also rules out division by zero)
or the two resolved prices are equal; but the other claimed conditions do
not force `0`: for `0 < listPrice < sellingPrice` the discount is
negative, and for `sellingPrice ≤ 0 < listPrice` it is positive. -/
theorem c2_discount_zero_conditions (b : String) (r : Json) (c : Canonical)
    (sq lq : ℚ)
    (h : processProduct b r = .ok c)
    (hres : resolvedPrices r = .ok (.num sq, .num lq))
    (hcond : lq ≤ 0 ∨ sq = lq) :
    c.descuento = .num 0 := by
  obtain ⟨sp, lp, cat, img, sl, idJ, nomJ, marJ, d, tal, lnk, dsc, dtr,
    h1, h2, h3, h4, h5, h6, h7, h8, h9, h10, h11, h12, h13, hc⟩ :=
    processProduct_ok_inv h
  rw [h1] at hres
  injection hres with hres'
  have hsp : sp = .num sq := congrArg Prod.fst hres'
  have hlp : lp = .num lq := congrArg Prod.snd hres'
  rw [hsp, hlp] at h9
  rcases hcond with hle | heq
  · rw [pyDiscount_num_nonpos sq hle] at h9
    injection h9 with h9'
    rw [hc]
    exact h9'.symm
  · by_cases hpos : 0 < lq
    · rw [heq, pyDiscount_num_pos lq hpos,
        show (1 - lq / lq) * 100 = ((0 : ℤ) : ℚ) by
          rw [div_self (ne_of_gt hpos)]; norm_num,
        roundHalfEven_intCast] at h9
      injection h9 with h9'
      rw [hc]
      rw [← h9']
      norm_num
    · rw [pyDiscount_num_nonpos sq (not_lt.mp hpos)] at h9
      injection h9 with h9'
      rw [hc]
      exact h9'.symm

/-- Witness for C2 at resolved prices `500 = 500`: the discount is 0. -/
theorem c2_discount_zero_conditions_witness :
    resolvedPrices c2wrec = .ok (.num 500, .num 500) ∧
    (priceOnlyCanonical 500 500 0).descuento = .num 0 := by
  have hd : pyDiscount (.num 500) (.num 500) = .ok (.num 0) := by
    rw [pyDiscount_num_pos 500 (by norm_num),
      show (1 - (500 : ℚ) / 500) * 100 = ((0 : ℤ) : ℚ) by norm_num,
      roundHalfEven_intCast]
    norm_num
  have hb := processProduct_build baseUrl c2wrec (.num 500) (.num 500) "" (.str "")
    [] (.str "") (.str "") (.str "") (.num 0) "N/A" (.str "") (.str "") (.str "")
    rfl rfl rfl rfl rfl rfl rfl rfl hd rfl rfl rfl rfl
  exact ⟨rfl, c2_discount_zero_conditions baseUrl c2wrec
    (priceOnlyCanonical 500 500 0) 500 500 hb rfl (Or.inr rfl)⟩

/-!
Claim C3 — discount value and range for a genuine discount.
-/

/-- C3 counterexample: `listPrice = 1001 > sellingPrice = 1000 > 0`, but
the discount rounds to `0`, outside the claimed interval `[1, 100]`. -/
theorem c3_counterexample :
    resolvedPrices c3rec = .ok (.num 1000, .num 1001) ∧
    (0 : ℚ) < 1000 ∧ (1000 : ℚ) < 1001 ∧
    (processProduct baseUrl c3rec).map Canonical.descuento = .ok (.num 0) ∧
    ¬(1 : ℤ) ≤ 0 := by
  have hd : pyDiscount (.num 1001) (.num 1000) = .ok (.num 0) := by
    rw [pyDiscount_num_pos 1000 (by norm_num),
      roundHalfEven_eq_of_lt_half 0 ((1 - (1000 : ℚ) / 1001) * 100)
        (by norm_num) (by norm_num)]
    norm_num
  have hb := processProduct_build baseUrl c3rec (.num 1000) (.num 1001) "" (.str "")
    [] (.str "") (.str "") (.str "") (.num 0) "N/A" (.str "") (.str "") (.str "")
    rfl rfl rfl rfl rfl rfl rfl rfl hd rfl rfl rfl rfl
  refine ⟨rfl, by norm_num, by norm_num, ?_, by norm_num⟩
  rw [hb]; rfl

/-- C3 (amended): for resolved prices `listPrice > sellingPrice > 0` the
discount equals `round((1 - sellingPrice/listPrice) * 100)` under round
half to even, and that integer lies in `[0, 100]` — the lower endpoint is
`0`, not `1`, because a discount below half a percent rounds down to 0. -/
theorem c3_discount_rounding_bounds (b : String) (r : Json) (c : Canonical)
    (sq lq : ℚ)
    (h : processProduct b r = .ok c)
    (hres : resolvedPrices r = .ok (.num sq, .num lq))
    (hs : 0 < sq) (hl : sq < lq) :
    c.descuento = .num ((roundHalfEven ((1 - sq / lq) * 100) : ℤ) : ℚ) ∧
    0 ≤ roundHalfEven ((1 - sq / lq) * 100) ∧
    roundHalfEven ((1 - sq / lq) * 100) ≤ 100 := by
  have hlpos : 0 < lq := hs.trans hl
  obtain ⟨sp, lp, cat, img, sl, idJ, nomJ, marJ, d, tal, lnk, dsc, dtr,
    h1, h2, h3, h4, h5, h6, h7, h8, h9, h10, h11, h12, h13, hc⟩ :=
    processProduct_ok_inv h
  rw [h1] at hres
  injection hres with hres'
  have hsp : sp = .num sq := congrArg Prod.fst hres'
  have hlp : lp = .num lq := congrArg Prod.snd hres'
  rw [hsp, hlp, pyDiscount_num_pos sq hlpos] at h9
  injection h9 with h9'
  have hx0 : 0 < (1 - sq / lq) * 100 := by
    have : sq / lq < 1 := (div_lt_one hlpos).mpr hl
    nlinarith
  have hx100 : (1 - sq / lq) * 100 < 100 := by
    have : 0 < sq / lq := div_pos hs hlpos
    nlinarith
  refine ⟨by rw [hc]; exact h9'.symm, ?_, ?_⟩
  · calc (0 : ℤ) ≤ ⌊(1 - sq / lq) * 100⌋ :=
        Int.le_floor.mpr (by push_cast; exact le_of_lt hx0)
      _ ≤ _ := floor_le_roundHalfEven _
  · have hfl : ⌊(1 - sq / lq) * 100⌋ < 100 :=
      Int.floor_lt.mpr (by push_cast; exact hx100)
    have := roundHalfEven_le_floor_add_one ((1 - sq / lq) * 100)
    omega

/-- Witness for C3 at resolved prices `1000 > 800 > 0` (a 20% discount). -/
theorem c3_discount_rounding_bounds_witness :
    resolvedPrices c3wrec = .ok (.num 800, .num 1000) ∧
    (priceOnlyCanonical 1000 800 20).descuento =
      .num ((roundHalfEven ((1 - (800 : ℚ) / 1000) * 100) : ℤ) : ℚ) ∧
    0 ≤ roundHalfEven ((1 - (800 : ℚ) / 1000) * 100) ∧
    roundHalfEven ((1 - (800 : ℚ) / 1000) * 100) ≤ 100 := by
  have hd : pyDiscount (.num 1000) (.num 800) = .ok (.num 20) := by
    rw [pyDiscount_num_pos 800 (by norm_num),
      show (1 - (800 : ℚ) / 1000) * 100 = ((20 : ℤ) : ℚ) by norm_num,
      roundHalfEven_intCast]
    norm_num
  have hb := processProduct_build baseUrl c3wrec (.num 800) (.num 1000) "" (.str "")
    [] (.str "") (.str "") (.str "") (.num 20) "N/A" (.str "") (.str "") (.str "")
    rfl rfl rfl rfl rfl rfl rfl rfl hd rfl rfl rfl rfl
  have hth := c3_discount_rounding_bounds baseUrl c3wrec
    (priceOnlyCanonical 1000 800 20) 800 1000 hb rfl (by norm_num) (by norm_num)
  exact ⟨rfl, hth.1, hth.2.1, hth.2.2⟩

/-!
Claim C7 — catalog-level price range resolution.
-/

/-- C7: a record with no `items` entry whose `priceRange` carries
`listPrice.highPrice = 1200` and `sellingPrice.highPrice = 900` resolves
`listPrice = 1200`, `sellingPrice = 900`, `discountPercent = 25`. -/
theorem c7_price_range_fallback (b : String) (kvs : List (String × Json))
    (c : Canonical)
    (hnoitems : lookupKV kvs "items" (.arr []) = .arr [])
    (hpr : lookupKV kvs "priceRange" (.obj []) =
      .obj [("listPrice", .obj [("highPrice", .num 1200)]),
            ("sellingPrice", .obj [("highPrice", .num 900)])])
    (h : processProduct b (.obj kvs) = .ok c) :
    c.precioLista = .num 1200 ∧ c.precioVenta = .num 900 ∧
    c.descuento = .num 25 := by
  have hres : resolvedPrices (.obj kvs) = .ok (.num 900, .num 1200) := by
    unfold resolvedPrices
    rw [show pyGet (.obj kvs) "priceRange" (.obj []) =
      .ok (.obj [("listPrice", .obj [("highPrice", .num 1200)]),
                 ("sellingPrice", .obj [("highPrice", .num 900)])]) by
        simp [pyGet, hpr]]
    rfl
  obtain ⟨sp, lp, cat, img, sl, idJ, nomJ, marJ, d, tal, lnk, dsc, dtr,
    h1, h2, h3, h4, h5, h6, h7, h8, h9, h10, h11, h12, h13, hc⟩ :=
    processProduct_ok_inv h
  rw [h1] at hres
  injection hres with hres'
  have hsp : sp = .num 900 := congrArg Prod.fst hres'
  have hlp : lp = .num 1200 := congrArg Prod.snd hres'
  have hd : pyDiscount (.num 1200) (.num 900) = .ok (.num 25) := by
    rw [pyDiscount_num_pos 900 (by norm_num),
      show (1 - (900 : ℚ) / 1200) * 100 = ((25 : ℤ) : ℚ) by norm_num,
      roundHalfEven_intCast]
    norm_num
  rw [hsp, hlp, hd] at h9
  injection h9 with h9'
  rw [hc, ← h9', hlp, hsp]
  exact ⟨rfl, rfl, rfl⟩

/-- Witness for C7 at the concrete scenario record. -/
theorem c7_price_range_fallback_witness :
    lookupKV [("priceRange", .obj [("listPrice", .obj [("highPrice", .num 1200)]),
      ("sellingPrice", .obj [("highPrice", .num 900)])])] "items" (.arr [])
      = .arr [] ∧
    (priceOnlyCanonical 1200 900 25).precioLista = .num 1200 ∧
    (priceOnlyCanonical 1200 900 25).precioVenta = .num 900 ∧
    (priceOnlyCanonical 1200 900 25).descuento = .num 25 := by
  have hd : pyDiscount (.num 1200) (.num 900) = .ok (.num 25) := by
    rw [pyDiscount_num_pos 900 (by norm_num),
      show (1 - (900 : ℚ) / 1200) * 100 = ((25 : ℤ) : ℚ) by norm_num,
      roundHalfEven_intCast]
    norm_num
  have hb := processProduct_build baseUrl c7rec (.num 900) (.num 1200) "" (.str "")
    [] (.str "") (.str "") (.str "") (.num 25) "N/A" (.str "") (.str "") (.str "")
    rfl rfl rfl rfl rfl rfl rfl rfl hd rfl rfl rfl rfl
  have hth := c7_price_range_fallback baseUrl
    [("priceRange", .obj [("listPrice", .obj [("highPrice", .num 1200)]),
      ("sellingPrice", .obj [("highPrice", .num 900)])])]
    (priceOnlyCanonical 1200 900 25) rfl rfl hb
  exact ⟨rfl, hth.1, hth.2.1, hth.2.2⟩

/-!
Fetcher step lemmas.
-/

/-- A successful attempt ends the retry loop with the parsed products. -/
theorem fetchPageGo_ok {sched : Nat → Nat → Except String (List Json)}
    {page attempt r : Nat} {ps : List Json} (h : sched page attempt = .ok ps) :
    fetchPageGo sched page attempt (r + 1) = (.ok ps, [(page, attempt)]) := by
  unfold fetchPageGo
  rw [h]

/-- A failure on the final attempt re-raises that failure. -/
theorem fetchPageGo_err_last {sched : Nat → Nat → Except String (List Json)}
    {page attempt : Nat} {e : String} (h : sched page attempt = .error e) :
    fetchPageGo sched page attempt 1 = (.error (some e), [(page, attempt)]) := by
  unfold fetchPageGo
  rw [h]
  simp

/-- A failure with retries left backs off and tries the next attempt. -/
theorem fetchPageGo_err_step {sched : Nat → Nat → Except String (List Json)}
    {page attempt r : Nat} {e : String} (h : sched page attempt = .error e)
    (hr : r ≠ 0) :
    fetchPageGo sched page attempt (r + 1) =
      ((fetchPageGo sched page (attempt + 1) r).1,
       (page, attempt) :: (fetchPageGo sched page (attempt + 1) r).2) := by
  conv_lhs => unfold fetchPageGo
  rw [h]
  simp [hr]

/-- Every request the retry loop for `page` issues is for `page`. -/
theorem fetchPageGo_log_pages (sched : Nat → Nat → Except String (List Json))
    (page : Nat) :
    ∀ (remaining attempt : Nat),
      ∀ pr ∈ (fetchPageGo sched page attempt remaining).2, pr.1 = page := by
  intro remaining
  induction remaining with
  | zero =>
    intro attempt pr hpr
    simp [fetchPageGo] at hpr
  | succ r ih =>
    intro attempt pr hpr
    unfold fetchPageGo at hpr
    cases hs : sched page attempt with
    | ok ps =>
      rw [hs] at hpr
      simp at hpr
      rw [hpr]
    | error e =>
      rw [hs] at hpr
      by_cases hr : r = 0
      · simp [hr] at hpr
        rw [hpr]
      · simp [hr] at hpr
        rcases hpr with hpr | hpr
        · rw [hpr]
        · exact ih (attempt + 1) pr hpr

/-- A page resolving to a nonempty product list extends the accumulator
and moves the loop to the next page. -/
theorem fetchGo_step_ok {sched : Nat → Nat → Except String (List Json)}
    {m fuel page : Nat} {acc ps : List Json} {l : List (Nat × Nat)}
    (h : fetchPage sched page m = (.ok ps, l)) (hne : ps ≠ []) :
    fetchGo sched m (fuel + 1) page acc =
      ((fetchGo sched m fuel (page + 1) (acc ++ ps)).1,
       l ++ (fetchGo sched m fuel (page + 1) (acc ++ ps)).2) := by
  have hps : ps.isEmpty = false := by
    cases ps with
    | nil => exact absurd rfl hne
    | cons a t => rfl
  conv_lhs => unfold fetchGo
  rw [h]
  simp [hps]

/-- A page resolving to an empty product list terminates pagination with
the accumulated records. -/
theorem fetchGo_step_empty {sched : Nat → Nat → Except String (List Json)}
    {m fuel page : Nat} {acc : List Json} {l : List (Nat × Nat)}
    (h : fetchPage sched page m = (.ok [], l)) :
    fetchGo sched m (fuel + 1) page acc = (.done acc, l) := by
  unfold fetchGo
  rw [h]
  rfl

/-- A page exhausting its retries aborts the loop with that error. -/
theorem fetchGo_step_err {sched : Nat → Nat → Except String (List Json)}
    {m fuel page : Nat} {acc : List Json} {e : String} {l : List (Nat × Nat)}
    (h : fetchPage sched page m = (.error (some e), l)) :
    fetchGo sched m (fuel + 1) page acc = (.err e, l) := by
  unfold fetchGo
  rw [h]

/-!
Claim C4 — retry loop outcome after two failures.
-/

/-- C4 (amended): with `max_retries = 3`, attempts 1 and 2 failing and
attempt 3 succeeding with a nonempty page lets the page contribute its
records and pagination continue at page 2; attempts 1-3 all failing makes
`fetch_products` re-raise the third attempt's transport error itself —
there is no `FatalFetchError` wrapper, and nothing attaches the page
number to the raised error (it is only logged). -/
theorem c4_retry_and_raise (sched : Nat → Nat → Except String (List Json))
    (ps : List Json) (e0 e1 e2 : String) (fuel : Nat)
    (h0 : sched 1 0 = .error e0) (h1 : sched 1 1 = .error e1) :
    (sched 1 2 = .ok ps → ps ≠ [] →
      fetchProducts sched 3 (fuel + 1) =
        ((fetchGo sched 3 fuel 2 ps).1,
         [(1, 0), (1, 1), (1, 2)] ++ (fetchGo sched 3 fuel 2 ps).2)) ∧
    (sched 1 2 = .error e2 →
      fetchProducts sched 3 (fuel + 1) = (.err e2, [(1, 0), (1, 1), (1, 2)])) := by
  constructor
  · intro h2 hne
    have hgo21 : fetchPageGo sched 1 2 1 = (.ok ps, [(1, 2)]) := fetchPageGo_ok h2
    have hgo12 : fetchPageGo sched 1 1 2 = (.ok ps, [(1, 1), (1, 2)]) := by
      rw [show (2 : Nat) = 1 + 1 from rfl, fetchPageGo_err_step h1 (by omega), hgo21]
    have hfp : fetchPage sched 1 3 = (.ok ps, [(1, 0), (1, 1), (1, 2)]) := by
      unfold fetchPage
      rw [show (3 : Nat) = 2 + 1 from rfl, fetchPageGo_err_step h0 (by omega), hgo12]
    unfold fetchProducts
    rw [fetchGo_step_ok hfp hne]
    simp
  · intro h2
    have hgo21 : fetchPageGo sched 1 2 1 = (.error (some e2), [(1, 2)]) :=
      fetchPageGo_err_last h2
    have hgo12 : fetchPageGo sched 1 1 2 = (.error (some e2), [(1, 1), (1, 2)]) := by
      rw [show (2 : Nat) = 1 + 1 from rfl, fetchPageGo_err_step h1 (by omega), hgo21]
    have hfp : fetchPage sched 1 3 = (.error (some e2), [(1, 0), (1, 1), (1, 2)]) := by
      unfold fetchPage
      rw [show (3 : Nat) = 2 + 1 from rfl, fetchPageGo_err_step h0 (by omega), hgo12]
    unfold fetchProducts
    rw [fetchGo_step_err hfp]

/-- Witness for C4: a concrete fail-fail-succeed schedule continues into
page 2 carrying the page's one product, and an always-failing schedule
aborts after exactly the three page-1 attempts with the transport error. -/
theorem c4_retry_and_raise_witness :
    c4sched 1 0 = .error "e0" ∧
    fetchProducts c4sched 3 10 =
      ((fetchGo c4sched 3 9 2 [Json.null]).1,
       [(1, 0), (1, 1), (1, 2)] ++ (fetchGo c4sched 3 9 2 [Json.null]).2) ∧
    fetchProducts schedFail1 3 10 = (.err "boom", [(1, 0), (1, 1), (1, 2)]) :=
  ⟨rfl,
   (c4_retry_and_raise c4sched [Json.null] "e0" "e1" "x" 9 rfl rfl).1 rfl (by simp),
   (c4_retry_and_raise schedFail1 [] "boom" "boom" "boom" 9 rfl rfl).2 rfl⟩

/-- C4 counterexample: two runs that exhaust retries on different pages
(page 1 under `schedFail1`; page 2 under `schedFail2`, as the request
logs show) raise the identical error value `"boom"`. The raised error is
the bare transport error: it carries no page number, and no
`FatalFetchError` type exists anywhere in the code. -/
theorem c4_counterexample :
    (fetchProducts schedFail1 3 10).1 = .err "boom" ∧
    (fetchProducts schedFail2 3 10).1 = .err "boom" ∧
    (fetchProducts schedFail1 3 10).2 = [(1, 0), (1, 1), (1, 2)] ∧
    (fetchProducts schedFail2 3 10).2 = [(1, 0), (2, 0), (2, 1), (2, 2)] :=
  ⟨rfl, rfl, rfl, rfl⟩

/-!
Claim C5 — an empty page terminates pagination.
-/

/-- The pagination loop invariant: if pages `s ≤ p < e` resolve to
nonempty product lists and page `e` resolves empty, then (with enough
fuel) the loop returns the accumulator extended with those pages'
records, and every request it issues is for a page at most `e`. -/
theorem fetchGo_pagination (sched : Nat → Nat → Except String (List Json))
    (m : Nat) (ps : Nat → List Json) (e : Nat)
    (hlt : ∀ p, 1 ≤ p → p < e → (fetchPage sched p m).1 = .ok (ps p) ∧ ps p ≠ [])
    (he : (fetchPage sched e m).1 = .ok []) :
    ∀ (k s : Nat) (acc : List Json), 1 ≤ s → s + k = e →
      ∀ fuel, k < fuel →
      (fetchGo sched m fuel s acc).1 =
        .done (acc ++ ((List.range k).map (fun i => ps (s + i))).flatten) ∧
      (∀ pr ∈ (fetchGo sched m fuel s acc).2, pr.1 ≤ e) := by
  intro k
  induction k with
  | zero =>
    intro s acc hs hse fuel hfuel
    obtain ⟨f', rfl⟩ : ∃ f', fuel = f' + 1 := ⟨fuel - 1, by omega⟩
    have hseq : s = e := by omega
    subst hseq
    have hpair : fetchPage sched s m = (.ok [], (fetchPage sched s m).2) := by
      rw [← he]
    rw [fetchGo_step_empty hpair]
    refine ⟨by simp, ?_⟩
    intro pr hpr
    have := fetchPageGo_log_pages sched s m 0 pr hpr
    omega
  | succ k ih =>
    intro s acc hs hse fuel hfuel
    obtain ⟨f', rfl⟩ : ∃ f', fuel = f' + 1 := ⟨fuel - 1, by omega⟩
    have hsp := hlt s hs (by omega)
    have hpair : fetchPage sched s m = (.ok (ps s), (fetchPage sched s m).2) := by
      rw [← hsp.1]
    rw [fetchGo_step_ok hpair hsp.2]
    have ihh := ih (s + 1) (acc ++ ps s) (by omega) (by omega) f' (by omega)
    constructor
    · rw [ihh.1]
      congr 1
      rw [List.append_assoc]
      congr 1
      rw [List.range_succ_eq_map]
      have hfun : (fun i => ps (s + 1 + i)) = (fun i => ps (s + (i + 1))) :=
        funext (fun i => congrArg ps (by omega))
      simp [List.map_map, Function.comp_def, hfun]
    · intro pr hpr
      rcases List.mem_append.mp hpr with hpr | hpr
      · have := fetchPageGo_log_pages sched s m 0 pr hpr
        omega
      · exact ihh.2 pr hpr

/-- C5: once some page `e` resolves (empty or absent `products`), the
loop stops: the run returns exactly the concatenation of the nonempty
pages `1..e-1` seen before it, and no request is ever issued for a page
beyond `e`. -/
theorem c5_empty_page_terminates (sched : Nat → Nat → Except String (List Json))
    (m : Nat) (ps : Nat → List Json) (e fuel : Nat)
    (he1 : 1 ≤ e)
    (hlt : ∀ p, 1 ≤ p → p < e → (fetchPage sched p m).1 = .ok (ps p) ∧ ps p ≠ [])
    (he : (fetchPage sched e m).1 = .ok [])
    (hfuel : e ≤ fuel) :
    (fetchProducts sched m fuel).1 =
      .done (((List.range (e - 1)).map (fun i => ps (1 + i))).flatten) ∧
    (∀ pr ∈ (fetchProducts sched m fuel).2, pr.1 ≤ e) := by
  have h := fetchGo_pagination sched m ps e hlt he (e - 1) 1 [] le_rfl (by omega)
    fuel (by omega)
  unfold fetchProducts
  exact ⟨by rw [h.1]; simp, h.2⟩

/-- Witness for C5: page 1 carries one product, page 2 is empty; the run
returns that one product and requests nothing past page 2. -/
theorem c5_empty_page_terminates_witness :
    (fetchPage c5sched 2 3).1 = .ok [] ∧
    (fetchProducts c5sched 3 10).1 =
      .done (((List.range 1).map (fun i => c5ps (1 + i))).flatten) ∧
    (∀ pr ∈ (fetchProducts c5sched 3 10).2, pr.1 ≤ 2) := by
  have h := c5_empty_page_terminates c5sched 3 c5ps 2 10 (by omega)
    (by
      intro p hp1 hp2
      have hp : p = 1 := by omega
      subst hp
      exact ⟨rfl, by simp [c5ps]⟩)
    rfl (by omega)
  exact ⟨rfl, h.1, h.2⟩

end Scraping
